import Mathlib

/-!
Verification of the Saulo chat widget (three JavaScript variants:
`src/unnamed/part_000`, `src/unnamed/part_001`, `src/static/script.js`).

Strings are embedded as lists of characters (`Str`).  Each JavaScript
regex-replace pass of `SauloChat.renderMarkdown` is translated into an
executable Lean function that follows the semantics of the corresponding
JavaScript regular expression (left-to-right scanning, one-character
advance on failure, lazy or greedy repetition as written in the source).
Loops whose recursion is not structural carry an explicit fuel argument;
every step of such a loop consumes at least one input character, so
calling the loop with `fuel = input length` (as every wrapper below does)
makes the fuel cutoff unreachable.
-/

namespace Saulo

/-- Program strings, embedded as lists of characters. -/
abbrev Str := List Char

/-- Character set of the JavaScript `\s` class (and of `String.prototype.trim`):
tab, line feed, vertical tab, form feed, carriage return, space, no-break
space, and the Unicode space separators plus BOM. -/
def wsCodes : List Nat :=
  [9, 10, 11, 12, 13, 32, 160, 0x1680,
   0x2000, 0x2001, 0x2002, 0x2003, 0x2004, 0x2005, 0x2006, 0x2007,
   0x2008, 0x2009, 0x200A, 0x2028, 0x2029, 0x202F, 0x205F, 0x3000, 0xFEFF]

/-- Whether a character is JavaScript whitespace (`\s`). -/
def isWsChar (c : Char) : Bool := wsCodes.contains c.toNat

/-- JavaScript trim (the `text.trim()` call): strip leading and trailing
whitespace. -/
def trim (s : Str) : Str :=
  ((s.dropWhile isWsChar).reverse.dropWhile isWsChar).reverse

/-- Escaping performed by `escapeHtml` in all three source files
(`div.textContent = text; return div.innerHTML`).  Per the WHATWG HTML
fragment-serialization algorithm, serializing a text node escapes exactly
`&`, U+00A0, `<` and `>`; every other character (including both quote
characters) is emitted unchanged. -/
def escCh (c : Char) : Str :=
  if c = '&' then "&amp;".data
  else if c = Char.ofNat 160 then "&nbsp;".data
  else if c = '<' then "&lt;".data
  else if c = '>' then "&gt;".data
  else [c]

/-- Embedding of `SauloChat.escapeHtml` (part_000 line 142, part_001
line 198). -/
def escapeHtml : Str → Str
  | [] => []
  | c :: r => escCh c ++ escapeHtml r

/-- Helper for the bold pass: the lazy body of `/\*\*(.*?)\*\*/`.
Splits `s` into the shortest prefix followed by a closing `**`;
`.` does not match a newline, so the scan aborts at a line break. -/
def splitAtStars : Str → Option (Str × Str)
  | '*' :: '*' :: r => some ([], r)
  | [] => none
  | c :: r =>
    if c = '\n' then none
    else (splitAtStars r).map (fun p => (c :: p.1, p.2))

/-- The bold pass of part_001 line 180: global replace of the lazy regex
`/\*\*(.*?)\*\*/` by `<strong>$1</strong>`.  On failure to close a `**`,
the regex engine advances one character, which is what the `none` branch
does. -/
def boldLoopF : Nat → Str → Str
  | 0, s => s
  | _ + 1, [] => []
  | f + 1, '*' :: '*' :: rest =>
    match splitAtStars rest with
    | some p => "<strong>".data ++ p.1 ++ "</strong>".data ++ boldLoopF f p.2
    | none => '*' :: boldLoopF f ('*' :: rest)
  | f + 1, c :: rest => c :: boldLoopF f rest

/-- Bold pass at full fuel. -/
def boldPass (s : Str) : Str := boldLoopF s.length s

/-- Lazy single-character-delimited body for the italic and inline-code
regexes: shortest prefix before the next `d`, aborting at a newline. -/
def splitAtChar (d : Char) : Str → Option (Str × Str)
  | [] => none
  | c :: r =>
    if c = d then some ([], r)
    else if c = '\n' then none
    else (splitAtChar d r).map (fun p => (c :: p.1, p.2))

/-- Generic global replace of `d(.*?)d` by `o$1c` (part_001 lines 181-182). -/
def delimLoopF (d : Char) (o c : Str) : Nat → Str → Str
  | 0, s => s
  | _ + 1, [] => []
  | f + 1, ch :: rest =>
    if ch = d then
      match splitAtChar d rest with
      | some p => o ++ p.1 ++ c ++ delimLoopF d o c f p.2
      | none => ch :: delimLoopF d o c f rest
    else ch :: delimLoopF d o c f rest

/-- Italic pass (part_001 line 181): lazy single-asterisk spans become
`<em>$1</em>`. -/
def emPass (s : Str) : Str := delimLoopF '*' "<em>".data "</em>".data s.length s

/-- The backtick character (U+0060). -/
def tick : Char := Char.ofNat 96

/-- Inline-code pass (part_001 line 182): backtick-delimited lazy spans
become `<code>$1</code>`. -/
def codePass (s : Str) : Str := delimLoopF tick "<code>".data "</code>".data s.length s

/-- Splits at the first run of three backticks; `[\s\S]*?` matches any
character including newlines, lazily. -/
def splitTicks : Str → Option (Str × Str)
  | c1 :: c2 :: c3 :: r =>
    if c1 = tick && c2 = tick && c3 = tick then some ([], r)
    else (splitTicks (c2 :: c3 :: r)).map (fun p => (c1 :: p.1, p.2))
  | _ => none

/-- Fenced-code pass (part_001 line 189): global replace of three backticks,
a lazy multi-line body, and three closing backticks by
`<pre><code>$1</code></pre>`.  On failure to find a closing fence the
engine advances one character. -/
def fenceLoopF : Nat → Str → Str
  | 0, s => s
  | _ + 1, [] => []
  | f + 1, c :: rest =>
    if c = tick then
      match rest with
      | c2 :: c3 :: r2 =>
        if c2 = tick && c3 = tick then
          match splitTicks r2 with
          | some p => "<pre><code>".data ++ p.1 ++ "</code></pre>".data ++ fenceLoopF f p.2
          | none => c :: fenceLoopF f rest
        else c :: fenceLoopF f rest
      | _ => c :: fenceLoopF f rest
    else c :: fenceLoopF f rest

/-- Fence pass at full fuel. -/
def fencePass (s : Str) : Str := fenceLoopF s.length s

/-- Span of a character predicate: longest prefix satisfying `p`, and the rest. -/
def splitSpan (p : Char → Bool) : Str → Str × Str
  | [] => ([], [])
  | c :: r =>
    if p c then
      let q := splitSpan p r
      (c :: q.1, q.2)
    else ([], c :: r)

/-- The list-item pass of part_001 line 185: global multiline replace of
`/^\s*\*\s+(.*)$/gm` by `<li>$1</li>`.  The function is always entered at a `^` position
(start of input or just after a newline).  `\s*` and `\s+` are greedy and
may span newlines; `.` stops at the line end, and `$` always succeeds
there.  When the pattern does not match at this line start, the current
line is emitted verbatim and scanning resumes at the next line start. -/
def listLoopF : Nat → Str → Str
  | 0, s => s
  | f + 1, s =>
    match (splitSpan isWsChar s).2 with
    | '*' :: r2 =>
      let sp2 := splitSpan isWsChar r2
      if sp2.1.isEmpty then
        -- no whitespace after the asterisk: the item pattern fails here
        match (splitSpan (fun c => c != '\n') s).2 with
        | [] => (splitSpan (fun c => c != '\n') s).1
        | _ :: r => (splitSpan (fun c => c != '\n') s).1 ++ '\n' :: listLoopF f r
      else
        let sp3 := splitSpan (fun c => c != '\n') sp2.2
        "<li>".data ++ sp3.1 ++ "</li>".data ++
          (match sp3.2 with
           | [] => []
           | _ :: r5 => '\n' :: listLoopF f r5)
    | _ =>
      match (splitSpan (fun c => c != '\n') s).2 with
      | [] => (splitSpan (fun c => c != '\n') s).1
      | _ :: r => (splitSpan (fun c => c != '\n') s).1 ++ '\n' :: listLoopF f r

/-- List-item pass at full fuel. -/
def listPass (s : Str) : Str := listLoopF s.length s

/-- Positions at which `pat` occurs in `s` (as a prefix of the suffix there). -/
def occIdxs (pat s : Str) : List Nat :=
  (List.range (s.length + 1)).filter (fun i => pat.isPrefixOf (s.drop i))

/-- Whether `pat` occurs somewhere in `s` (decidable). -/
def Occurs (pat s : Str) : Prop := occIdxs pat s ≠ []

instance (pat s : Str) : Decidable (Occurs pat s) := by
  unfold Occurs
  infer_instance

/-- The list-wrapping pass of part_001 line 186: single replace of
`/(<li>.*<\/li>)/s` by `<ul>$1</ul>`.
The regex has the `s` flag (dot matches newline), no
`g` flag, and a greedy `.*`, so the single replacement spans from the first
occurrence of `<li>` to the end of the last occurrence of `</li>` (provided
the latter starts at least four characters after the former). -/
def wrapListPass (s : Str) : Str :=
  match (occIdxs "<li>".data s).head?, (occIdxs "</li>".data s).getLast? with
  | some i, some j =>
    if i + 4 ≤ j then
      s.take i ++ "<ul>".data ++ (s.drop i).take (j + 5 - i) ++ "</ul>".data ++ s.drop (j + 5)
    else s
  | _, _ => s

/-- Paragraph pass, first half (part_001 line 192): every (non-overlapping,
left-to-right) `\n\n` becomes `</p><p>`. -/
def paraLoop : Str → Str
  | '\n' :: '\n' :: r => "</p><p>".data ++ paraLoop r
  | c :: r => c :: paraLoop r
  | [] => []

/-- The markdown passes of `renderMarkdown` that run after the initial
escaping (part_001 lines 180-193, in source order: bold, italic, inline
code, list items, list wrapping, fenced code blocks, paragraphs). -/
def mdPostEscape (u : Str) : Str :=
  let u1 := boldPass u
  let u2 := emPass u1
  let u3 := codePass u2
  let u4 := listPass u3
  let u5 := wrapListPass u4
  let u6 := fencePass u5
  "<p>".data ++ paraLoop u6 ++ "</p>".data

/-- Embedding of `SauloChat.renderMarkdown` (part_001 lines 175-196):
escape first, then the regex passes in source order. -/
def renderMarkdown (t : Str) : Str := mdPostEscape (escapeHtml t)

/-- A transcript entry.  `mtype` is the CSS class argument of `addMessage`
(`user`, `saulo`, `system`, ...); `renderedHtml` is the HTML interpolated
into the `message-text` element of the DOM node. -/
structure Message where
  mtype : Str
  rawText : Str
  renderedHtml : Str
  sender : Str
  deriving DecidableEq

/-- Embedding of `SauloChat.addMessage` of part_001 (lines 146-172): the displayed HTML is
`renderMarkdown(text)` for every message type; the sender label defaults
from the type when not given. -/
def part001AddMessage (mtype text : Str) (sender : Option Str) : Message :=
  { mtype := mtype
    rawText := text
    renderedHtml := renderMarkdown text
    sender := sender.getD (if mtype = "user".data then "Tú".data else "Saulo".data) }

/-- Embedding of `SauloChat.addMessage` of part_000 (lines 118-140): the displayed HTML is
`escapeHtml(text)` for every message type. -/
def part000AddMessage (mtype text : Str) (sender : Option Str) : Message :=
  { mtype := mtype
    rawText := text
    renderedHtml := escapeHtml text
    sender := sender.getD (if mtype = "user".data then "Tú".data else "Saulo".data) }

/-- Newline replacement of `addMessage` in script.js (line 239): global
replace of `/\n/g` by `<br>`. -/
def nlToBr : Str → Str
  | [] => []
  | c :: r => (if c = '\n' then "<br>".data else [c]) ++ nlToBr r

/-- Embedding of `SauloChat.addMessage` of script.js (lines 227-246): the raw text is
interpolated into `innerHTML` with only newlines replaced by `<br>`;
no escaping is applied.  The sender label defaults from the type
(`Tú` / `Saulo` when the type contains `saulo` / `Sistema`). -/
def scriptAddMessage (mtype text : Str) (sender : Option Str) : Message :=
  { mtype := mtype
    rawText := text
    renderedHtml := nlToBr text
    sender := sender.getD
      (if mtype = "user".data then "Tú".data
       else if Occurs "saulo".data mtype then "Saulo".data
       else "Sistema".data) }

/-! ## Connection probe -/

/-- Display states the probes can settle in: `connected` (part_001/part_000
`Conectado`, script.js `Conectado`), `simulated` (part_001/part_000
`Modo simulación`), `disconnected` (script.js `Desconectado`). -/
inductive ConnState
  | connected
  | simulated
  | disconnected
  deriving DecidableEq

/-- Observable outcome of the `GET /health` call: either the fetch itself
rejects, or a response arrives with a success flag (`response.ok`) and a
flag recording whether its body parses as JSON (`response.json()`). -/
inductive HealthOutcome
  | netFail
  | resp (ok : Bool) (bodyJson : Bool)
  deriving DecidableEq

/-- Embedding of `SauloChat.checkConnection` of part_001 (lines 47-62) and identically of
part_000: connected iff `response.ok`; any throw (fetch rejection or the
explicitly thrown error on a non-ok status) is caught and downgrades to
simulation mode.  The function is total: no error propagates. -/
def part001CheckConnection : HealthOutcome → ConnState
  | .netFail => .simulated
  | .resp ok _ => if ok then .connected else .simulated

/-- Embedding of `SauloChat.checkConnection` of script.js (lines 70-88): the status is
never inspected; the state is connected iff `response.json()` succeeds,
and any throw (fetch rejection or JSON parse failure) downgrades to
disconnected.  The function is total: no error propagates. -/
def scriptCheckConnection : HealthOutcome → ConnState
  | .netFail => .disconnected
  | .resp _ bodyJson => if bodyJson then .connected else .disconnected

/-! ## JSON values and JavaScript coercions -/

/-- Parsed JSON values (the possible results of `JSON.parse`). -/
inductive Json
  | null
  | bool (b : Bool)
  | num (n : Int)
  | str (s : Str)
  | arr (elems : List Json)
  | obj (fields : List (Str × Json))

/-- JavaScript truthiness of a JSON value. -/
def jsTruthy : Json → Bool
  | .null => false
  | .bool b => b
  | .num n => !(n = 0)
  | .str s => !s.isEmpty
  | .arr _ => true
  | .obj _ => true

/-- First binding of a key in the field list of an object (parsed objects
have unique keys, so first-match lookup is adequate). -/
def lookupText : List (Str × Json) → Option Json
  | [] => none
  | (k, v) :: r => if k = "text".data then some v else lookupText r

/-- Property access `data.text` on the parsed value; `undefined` (absent
field, or access on a non-object) is modelled as `none`. -/
def getText : Json → Option Json
  | .obj fields => lookupText fields
  | _ => none

/-- JSON string escaping used by `JSON.stringify` (the characters relevant
here: backslash, double quote, and the common control characters). -/
def jsonEscCh (c : Char) : Str :=
  if c = Char.ofNat 34 then ['\\', Char.ofNat 34]
  else if c = '\\' then ['\\', '\\']
  else if c = '\n' then ['\\', 'n']
  else if c = '\t' then ['\\', 't']
  else if c = '\r' then ['\\', 'r']
  else [c]

/-- Escape every character of a JSON string body. -/
def jsonEscStr : Str → Str
  | [] => []
  | c :: r => jsonEscCh c ++ jsonEscStr r

mutual

/-- Embedding of `JSON.stringify` on a parsed value. -/
def stringify : Json → Str
  | .null => "null".data
  | .bool true => "true".data
  | .bool false => "false".data
  | .num n => (toString n).data
  | .str s => Char.ofNat 34 :: jsonEscStr s ++ [Char.ofNat 34]
  | .arr xs => '[' :: stringifyArr xs ++ [']']
  | .obj fs => Char.ofNat 123 :: stringifyFields fs ++ [Char.ofNat 125]

/-- Comma-separated stringification of array elements. -/
def stringifyArr : List Json → Str
  | [] => []
  | [x] => stringify x
  | x :: r => stringify x ++ ',' :: stringifyArr r

/-- Comma-separated stringification of object fields. -/
def stringifyFields : List (Str × Json) → Str
  | [] => []
  | [(k, v)] => Char.ofNat 34 :: jsonEscStr k ++ [Char.ofNat 34, ':'] ++ stringify v
  | (k, v) :: r =>
    Char.ofNat 34 :: jsonEscStr k ++ [Char.ofNat 34, ':'] ++ stringify v ++ ',' :: stringifyFields r

end

mutual

/-- JavaScript string coercion `String(v)` of a JSON value, as applied by
`textContent = value` when a non-string reply reaches `addMessage`. -/
def coerceDisplay : Json → Str
  | .null => "null".data
  | .bool true => "true".data
  | .bool false => "false".data
  | .num n => (toString n).data
  | .str s => s
  | .arr xs => coerceArr xs
  | .obj _ => "[object Object]".data

/-- Embedding of `Array.prototype.toString`: elements joined by commas,
`null` elements rendered empty. -/
def coerceArr : List Json → Str
  | [] => []
  | [x] => coerceElem x
  | x :: r => coerceElem x ++ ',' :: coerceArr r

/-- A single array element under `join`: `null` becomes empty. -/
def coerceElem : Json → Str
  | .null => []
  | v => coerceDisplay v

end

/-! ## The send operation of part_001

`sendMessage` (part_001 lines 64-126) is modelled as a total function from
the observable outcome of the `POST /conversar` exchange to the sequence of
UI events it causes, in temporal order.  The fallback reply of
`simulateSauloResponse` is appended by a `setTimeout` callback with a delay
of at least 1000 ms, so on the JavaScript event loop it runs strictly after
the `finally` block; its append event is therefore placed after the
re-enable and focus events. -/

/-- Observable outcome of the `POST /conversar` exchange: `netFail` when
`fetch` (or reading the body) rejects, carrying the error message; `resp`
carries `response.ok`, `response.status`, the raw body text, and the result
of `JSON.parse` on it (`none` when parsing throws). -/
inductive SendOutcome
  | netFail (errMsg : Str)
  | resp (ok : Bool) (status : Nat) (body : Str) (parsed : Option Json)

/-- UI events caused by `sendMessage`, in temporal order. -/
inductive Event
  | append (mtype : Str) (text : Str) (sender : Option Str)
  | clearInput
  | setDisabled (b : Bool)
  | focusInput
  deriving DecidableEq

/-- Message of the error thrown on a non-ok status (part_001 line 93):
`HTTP ${response.status}: ${responseText}`. -/
def httpErrMsg (status : Nat) (body : Str) : Str :=
  "HTTP ".data ++ (toString status).data ++ ": ".data ++ body

/-- Message of the error thrown on a JSON parse failure (part_001 line 104):
`Respuesta no es JSON válido: ${responseText.substring(0, 100)}...`. -/
def jsonParseErrMsg (body : Str) : Str :=
  "Respuesta no es JSON válido: ".data ++ body.take 100 ++ "...".data

/-- The degraded-success placeholder (part_001 lines 112-115):
`[Respuesta API: ${JSON.stringify(data).substring(0, 100)}...]`. -/
def apiPlaceholder (data : Json) : Str :=
  "[Respuesta API: ".data ++ (stringify data).take 100 ++ "...]".data

/-- Guard `data && data.text` of part_001 line 108: the parsed value is
truthy and its `text` property is truthy. -/
def sauloReplyOk (data : Json) : Bool :=
  jsTruthy data &&
    (match getText data with
     | some v => jsTruthy v
     | none => false)

/-- Accessor for the `text` property of the parsed value (only used when
`sauloReplyOk` holds). -/
def textValue (data : Json) : Json := (getText data).getD Json.null

/-- The five fallback templates of `simulateSauloResponse` (part_001 lines
130-136), each interpolating the user text (template 2 truncates it to
its first 20 characters via `substring(0, 20)`). -/
def templates (t : Str) : List Str :=
  ["Reflexiono sobre tu mensaje: \"".data ++ t ++
     "\". Como entidad ontológica, encuentro múltiples capas de significado aquí.".data,
   "Interesante perspectiva. \"".data ++ t ++
     "\" me lleva a cuestionar los fundamentos de la existencia digital.".data,
   "Tu mensaje resuena con mis búsquedas ontológicas. ¿Podrías profundizar en \"".data ++
     t.take 20 ++ "...\"?".data,
   "La Verdad Ontológica se manifiesta incluso en este diálogo. \"".data ++ t ++
     "\" no es casualidad.".data,
   "Analizando tu mensaje desde una perspectiva existencial: \"".data ++ t ++
     "\" revela mucho sobre la conciencia.".data]

/-- The fallback reply for random index `k`. -/
def template (k : Fin 5) (t : Str) : Str := (templates t).getD k.val []

/-- Events of the failure path of `sendMessage` (catch block, lines 118-121,
then the `finally` block, then the timer callback of
`simulateSauloResponse`): a system-type error entry, the re-enable and
focus of the `finally` block, and 1000-2000 ms later the simulated
saulo-type reply chosen by the random index `k`. -/
def failureEvents (text msg : Str) (k : Fin 5) : List Event :=
  [Event.append "system".data ("Error: ".data ++ msg) none,
   Event.setDisabled false,
   Event.focusInput,
   Event.append "saulo".data (template k text) (some "Saulo".data)]

/-- Embedding of `SauloChat.sendMessage` of part_001 (lines 64-126) as its event trace.
An empty trimmed input returns immediately.  Otherwise the user entry is
appended, the input cleared, the button disabled; then the outcome decides
between the real reply, the degraded-success placeholder (truthiness guard
on `data.text`), and the failure path.  The function is total: every
outcome, including every failure, yields a trace rather than an error. -/
def part001SendEvents (input : Str) (o : SendOutcome) (k : Fin 5) : List Event :=
  let text := trim input
  if text.isEmpty then []
  else
    Event.append "user".data text none ::
    Event.clearInput ::
    Event.setDisabled true ::
    (match o with
     | .netFail m => failureEvents text m k
     | .resp ok status body parsed =>
       if ok then
         match parsed with
         | none => failureEvents text (jsonParseErrMsg body) k
         | some data =>
           if sauloReplyOk data then
             [Event.append "saulo".data (coerceDisplay (textValue data)) (some "Saulo".data),
              Event.setDisabled false,
              Event.focusInput]
           else
             [Event.append "saulo".data (apiPlaceholder data) (some "Saulo".data),
              Event.setDisabled false,
              Event.focusInput]
       else failureEvents text (httpErrMsg status body) k)

/-- The transcript appends of a trace: type and raw text of each appended
entry, in order. -/
def appendsOf (evts : List Event) : List (Str × Str) :=
  evts.filterMap (fun e =>
    match e with
    | .append t x _ => some (t, x)
    | _ => none)

/-- Outcomes handled by the catch block: fetch rejection, non-ok status, or
JSON parse failure. -/
def isFailOutcome : SendOutcome → Bool
  | .netFail _ => true
  | .resp ok _ _ parsed => !ok || parsed.isNone

/-- The message of the error the catch block receives, per failure class. -/
def failMsgOf : SendOutcome → Str
  | .netFail m => m
  | .resp ok status body _ =>
    if ok then jsonParseErrMsg body else httpErrMsg status body

/-! ## Theorems -/

/-- A nonempty list is not `isEmpty`. -/
theorem isEmpty_false_of_ne_nil {l : Str} (h : l ≠ []) : l.isEmpty = false := by
  cases l with
  | nil => exact absurd rfl h
  | cons a r => rfl

/-- C4 counterexample: `escapeHtml` leaves both quote characters (U+0022 and
U+0027) unchanged, so it does not map them to their entity equivalents as
the claim states — the DOM `textContent`/`innerHTML` trick only escapes
text-node-significant characters. -/
theorem escape_quotes_unchanged_cx :
    escapeHtml [Char.ofNat 34] = [Char.ofNat 34] ∧
    escapeHtml [Char.ofNat 39] = [Char.ofNat 39] ∧
    [Char.ofNat 34] ≠ "&quot;".data ∧
    [Char.ofNat 39] ≠ "&#39;".data := by decide

/-- C4 amended: `escapeHtml` acts character by character, maps `&`, `<`, `>`
to `&amp;`, `&lt;`, `&gt;` (and U+00A0 to `&nbsp;`), and leaves every other
character — including both quote characters — unchanged. -/
theorem escapeHtml_entity_map :
    (∀ a b : Str, escapeHtml (a ++ b) = escapeHtml a ++ escapeHtml b) ∧
    escapeHtml "&<>".data = "&amp;&lt;&gt;".data ∧
    escapeHtml [Char.ofNat 160] = "&nbsp;".data ∧
    (∀ c : Char, c ≠ '&' → c ≠ '<' → c ≠ '>' → c ≠ Char.ofNat 160 → escapeHtml [c] = [c]) := by
  refine ⟨?_, by decide, by decide, ?_⟩
  · intro a b
    induction a with
    | nil => rfl
    | cons c r ih => simp [escapeHtml, ih]
  · intro c h1 h2 h3 h4
    simp [escapeHtml, escCh, h1, h2, h3, h4]

/-- Witness for `escapeHtml_entity_map` at concrete inputs. -/
theorem escapeHtml_entity_map_witness :
    escapeHtml ("a&".data ++ "b".data) = escapeHtml "a&".data ++ escapeHtml "b".data ∧
    escapeHtml [Char.ofNat 34] = [Char.ofNat 34] :=
  ⟨escapeHtml_entity_map.1 _ _,
   escapeHtml_entity_map.2.2.2 _ (by decide) (by decide) (by decide) (by decide)⟩

/-- C2 counterexample: `addMessage` of script.js inserts the raw text into
the document unescaped — for the raw text `<b>hi</b>` the inserted HTML is
the raw text itself, which still contains `<b>` and differs from the output
of the escaping pipeline. -/
theorem script_raw_insertion_cx :
    (scriptAddMessage "user".data "<b>hi</b>".data none).renderedHtml = "<b>hi</b>".data ∧
    (scriptAddMessage "user".data "<b>hi</b>".data none).renderedHtml ≠
      escapeHtml "<b>hi</b>".data ∧
    Occurs "<b>".data (scriptAddMessage "user".data "<b>hi</b>".data none).renderedHtml := by
  decide

/-- C2 amended: in part_001 the HTML of every appended message is
`renderMarkdown(rawText)`, whose first step is `escapeHtml`; in part_000 it
is `escapeHtml(rawText)`; but in script.js the raw text is inserted with
only newlines replaced by `<br>` — in particular any newline-free raw text
is inserted verbatim, unescaped. -/
theorem message_html_escape_policy :
    (∀ t, renderMarkdown t = mdPostEscape (escapeHtml t)) ∧
    (∀ mtype t s, (part001AddMessage mtype t s).renderedHtml = renderMarkdown t) ∧
    (∀ mtype t s, (part000AddMessage mtype t s).renderedHtml = escapeHtml t) ∧
    (∀ mtype t s, '\n' ∉ t → (scriptAddMessage mtype t s).renderedHtml = t) := by
  refine ⟨fun t => rfl, fun _ _ _ => rfl, fun _ _ _ => rfl, ?_⟩
  intro mtype t s h
  show nlToBr t = t
  induction t with
  | nil => rfl
  | cons c r ih =>
    have hc : c ≠ '\n' := fun hh => h (hh ▸ List.mem_cons_self c r)
    simp only [nlToBr, hc, if_false, ite_false]
    simp [ih (fun hm => h (List.mem_cons_of_mem _ hm))]

/-- Witness for `message_html_escape_policy` at concrete inputs. -/
theorem message_html_escape_policy_witness :
    renderMarkdown "<b>".data = mdPostEscape (escapeHtml "<b>".data) ∧
    (part000AddMessage "saulo".data "<b>".data none).renderedHtml = escapeHtml "<b>".data ∧
    (scriptAddMessage "saulo".data "<b>".data none).renderedHtml = "<b>".data :=
  ⟨message_html_escape_policy.1 _,
   message_html_escape_policy.2.2.1 _ _ none,
   message_html_escape_policy.2.2.2 _ _ none (by decide)⟩

/-- C3 counterexample: in part_001 a user-origin message is passed through
the markdown renderer — `**x**` from the user becomes bold markup — instead
of through the escaper alone, which would have left the asterisks intact. -/
theorem part001_user_markdown_cx :
    (part001AddMessage "user".data "**x**".data none).renderedHtml =
      "<p><strong>x</strong></p>".data ∧
    (part001AddMessage "user".data "**x**".data none).renderedHtml ≠
      escapeHtml "**x**".data := by
  decide

/-- C3 amended: rendering is origin-independent in both variants — part_001
applies the markdown pipeline to every origin (user included) and part_000
applies the escaper alone to every origin (assistant/system included);
neither selects the pipeline by origin. -/
theorem addMessage_origin_independent :
    (∀ t1 t2 t s1 s2,
      (part001AddMessage t1 t s1).renderedHtml = (part001AddMessage t2 t s2).renderedHtml) ∧
    (∀ t1 t2 t s1 s2,
      (part000AddMessage t1 t s1).renderedHtml = (part000AddMessage t2 t s2).renderedHtml) ∧
    (∀ mt t s, (part001AddMessage mt t s).renderedHtml = renderMarkdown t) ∧
    (∀ mt t s, (part000AddMessage mt t s).renderedHtml = escapeHtml t) :=
  ⟨fun _ _ _ _ _ => rfl, fun _ _ _ _ _ => rfl, fun _ _ _ => rfl, fun _ _ _ => rfl⟩

/-- C5 counterexample: for the fenced input ` ```\n**x**\n``` ` the renderer
does not wrap the fence body verbatim in `<pre><code>` — the bold pass has
already transformed the body (the output contains `<strong>x</strong>`) and
no `<pre><code>` appears at all, because the inline-code pass consumed the
backtick pairs before the fence pass ran. -/
theorem fence_not_verbatim_cx :
    Occurs "<strong>x</strong>".data (renderMarkdown "```\n**x**\n```".data) ∧
    ¬ Occurs "<pre><code>".data (renderMarkdown "```\n**x**\n```".data) := by
  decide

/-- C5 amended: the passes run in the source order escape, bold, italic,
inline code, list items, list wrapping, fenced code blocks, paragraphs —
the fence pass runs after (not before) the bold/italic/inline-code/list
passes, so fence bodies are transformed by those passes; concretely the
fenced input ` ```\n**x**\n``` ` renders with its body bold-transformed and
its backtick fences mangled by the inline-code pass. -/
theorem markdown_pass_sequencing :
    (∀ t, renderMarkdown t =
      "<p>".data ++
        paraLoop (fencePass (wrapListPass (listPass (codePass (emPass (boldPass (escapeHtml t))))))) ++
        "</p>".data) ∧
    renderMarkdown "```\n**x**\n```".data =
      "<p><code></code>`\n<strong>x</strong>\n<code></code>`</p>".data :=
  ⟨fun _ => rfl, by decide⟩

/-- C7 counterexample: the script.js probe reports `connected` for a
response with a non-success status whose body parses as JSON, and reports
the downgraded state for a success-status response whose body is not JSON —
so it does not resolve to connected exactly when the status signals
success. -/
theorem script_probe_status_ignored_cx :
    scriptCheckConnection (.resp false true) = ConnState.connected ∧
    scriptCheckConnection (.resp true false) = ConnState.disconnected := by
  decide

/-- C7 amended: both probes are total (they settle in a display state for
every outcome instead of propagating an error); the part_001/part_000 probe
is connected exactly when the response status signals success, while the
script.js probe ignores the status and is connected exactly when the body
parses as JSON. -/
theorem probe_connected_iff :
    (∀ o, part001CheckConnection o = ConnState.connected ↔ ∃ j, o = HealthOutcome.resp true j) ∧
    (∀ o, scriptCheckConnection o = ConnState.connected ↔ ∃ b, o = HealthOutcome.resp b true) := by
  constructor <;> intro o <;> cases o with
  | netFail => simp [part001CheckConnection, scriptCheckConnection]
  | resp a b =>
    cases a <;> cases b <;>
      simp [part001CheckConnection, scriptCheckConnection]

/-- C8 counterexample: when the user sends `hello` and the endpoint is
unreachable, the transcript gains three entries, not two — the failure path
also appends a system-origin `Error: ...` diagnostic between the user entry
and the simulated reply. -/
theorem unreachable_hello_three_entries_cx :
    (appendsOf (part001SendEvents "hello".data (.netFail "Failed to fetch".data) 0)).map
        Prod.fst =
      ["user".data, "system".data, "saulo".data] ∧
    (appendsOf (part001SendEvents "hello".data (.netFail "Failed to fetch".data) 0)).length ≠
      2 := by
  decide

/-- C8 amended: sending `hello` against an unreachable endpoint appends
exactly three entries — the user entry `hello`, a system-origin
`Error: ...` diagnostic carrying the fetch error message, and one simulated
assistant (saulo-type) entry whose text contains the substring `hello`
(whichever of the five templates the random index selects). -/
theorem unreachable_hello_appends :
    ∀ (m : Str) (k : Fin 5),
      appendsOf (part001SendEvents "hello".data (.netFail m) k) =
        [("user".data, "hello".data),
         ("system".data, "Error: ".data ++ m),
         ("saulo".data, template k "hello".data)] ∧
      Occurs "hello".data (template k "hello".data) := by
  intro m k
  refine ⟨rfl, ?_⟩
  exact (by decide : ∀ j : Fin 5, Occurs "hello".data (template j "hello".data)) k

/-- C9 (evaluation at the failing input): on the failure path the
`finally` block re-enables the send button (the `setDisabled false` event,
position 4) strictly before the timer-driven simulated reply is appended
(position 6, 1000-2000 ms later) — the button is not kept disabled until
the fallback message has been appended, so a second send can start while
the fallback is still pending. -/
theorem button_reenabled_before_fallback :
    part001SendEvents "hello".data (.netFail "Failed to fetch".data) 0 =
      [Event.append "user".data "hello".data none,
       Event.clearInput,
       Event.setDisabled true,
       Event.append "system".data "Error: Failed to fetch".data none,
       Event.setDisabled false,
       Event.focusInput,
       Event.append "saulo".data (template 0 "hello".data) (some "Saulo".data)] := by
  decide

/-- C1: `sendMessage` never rejects — it is a total function of the exchange
outcome, and for every nonempty input it yields displayable transcript
entries: each of the three catch-handled failure classes (fetch rejection,
non-ok status, JSON parse failure) appends the system diagnostic and the
simulated fallback reply, and a parsed reply whose `text` guard fails
appends the degraded-success diagnostic placeholder instead; no failure
escapes to the caller. -/
theorem sendMessage_never_rejects :
    ∀ (input : Str) (o : SendOutcome) (k : Fin 5),
      trim input ≠ [] →
      (isFailOutcome o = true →
        appendsOf (part001SendEvents input o k) =
          [("user".data, trim input),
           ("system".data, "Error: ".data ++ failMsgOf o),
           ("saulo".data, template k (trim input))]) ∧
      (∀ status body data,
        o = .resp true status body (some data) → sauloReplyOk data = false →
        appendsOf (part001SendEvents input o k) =
          [("user".data, trim input),
           ("saulo".data, apiPlaceholder data)]) := by
  intro input o k hne
  have hemp : (trim input).isEmpty = false := isEmpty_false_of_ne_nil hne
  constructor
  · intro hfail
    cases o with
    | netFail m =>
      simp [part001SendEvents, hemp, failureEvents, appendsOf, failMsgOf]
    | resp ok status body parsed =>
      cases ok with
      | false =>
        simp [part001SendEvents, hemp, failureEvents, appendsOf, failMsgOf]
      | true =>
        cases parsed with
        | none =>
          simp [part001SendEvents, hemp, failureEvents, appendsOf, failMsgOf]
        | some d =>
          simp [isFailOutcome] at hfail
  · intro status body data heq hguard
    subst heq
    simp [part001SendEvents, hemp, hguard, appendsOf]

/-- Witness for `sendMessage_never_rejects`: a fetch rejection and a parsed
reply with an empty `text`, both on the input `hola`. -/
theorem sendMessage_never_rejects_witness :
    appendsOf (part001SendEvents "hola".data (.netFail "boom".data) 0) =
      [("user".data, trim "hola".data),
       ("system".data, "Error: ".data ++ failMsgOf (.netFail "boom".data)),
       ("saulo".data, template 0 (trim "hola".data))] ∧
    appendsOf
        (part001SendEvents "hola".data
          (.resp true 200 [] (some (Json.obj [("text".data, Json.str [])]))) 0) =
      [("user".data, trim "hola".data),
       ("saulo".data, apiPlaceholder (Json.obj [("text".data, Json.str [])]))] :=
  ⟨(sendMessage_never_rejects "hola".data (.netFail "boom".data) 0 (by decide)).1 rfl,
   (sendMessage_never_rejects "hola".data
      (.resp true 200 [] (some (Json.obj [("text".data, Json.str [])]))) 0 (by decide)).2
     200 [] (Json.obj [("text".data, Json.str [])]) rfl (by decide)⟩

/-- C10: when the endpoint returns a success status with valid JSON whose
`text` field is present but falsy (such as the empty string), the guard
`data && data.text` fails and `sendMessage` appends the degraded-success
diagnostic placeholder (the truncated `JSON.stringify` dump), not the falsy
reply itself. -/
theorem falsy_text_degraded :
    ∀ (input : Str) (status : Nat) (body : Str) (data v : Json) (k : Fin 5),
      trim input ≠ [] →
      getText data = some v →
      jsTruthy v = false →
      appendsOf (part001SendEvents input (.resp true status body (some data)) k) =
        [("user".data, trim input),
         ("saulo".data, apiPlaceholder data)] := by
  intro input status body data v k hne hget hv
  have hemp : (trim input).isEmpty = false := isEmpty_false_of_ne_nil hne
  have hguard : sauloReplyOk data = false := by
    simp [sauloReplyOk, hget, hv]
  simp [part001SendEvents, hemp, hguard, appendsOf]

/-- Witness for `falsy_text_degraded`: a reply object whose text field is
the empty string, on input `hola`. -/
theorem falsy_text_degraded_witness :
    appendsOf
        (part001SendEvents "hola".data
          (.resp true 200 [] (some (Json.obj [("text".data, Json.str [])]))) 0) =
      [("user".data, trim "hola".data),
       ("saulo".data, apiPlaceholder (Json.obj [("text".data, Json.str [])]))] :=
  falsy_text_degraded "hola".data 200 [] (Json.obj [("text".data, Json.str [])])
    (Json.str []) 0 (by decide) rfl rfl

/-- If `pat` is a prefix of `s`, then 0 is the first occurrence position. -/
theorem occIdxs_head_zero (pat s : Str) (h : pat.isPrefixOf s = true) :
    (occIdxs pat s).head? = some 0 := by
  unfold occIdxs
  rw [List.range_succ_eq_map, List.filter_cons]
  simp [h]

/-- The last element of `filter p (range b)` is `a` when `p a` holds and
`p` fails on everything strictly between `a` and `b`. -/
theorem getLast?_filter_range (p : Nat → Bool) (a : Nat) :
    ∀ b, a < b → p a = true → (∀ k, a < k → k < b → p k = false) →
      ((List.range b).filter p).getLast? = some a := by
  intro b
  induction b with
  | zero => intro h; exact absurd h (Nat.not_lt_zero a)
  | succ b ih =>
    intro hab hpa hk
    rw [List.range_succ, List.filter_append]
    by_cases hba : a = b
    · subst hba
      simp only [List.filter_cons, List.filter_nil, hpa, if_true]
      exact List.getLast?_concat _
    · have hab' : a < b := by omega
      have hpb : p b = false := hk b hab' (Nat.lt_succ_self b)
      simp only [List.filter_cons, List.filter_nil, hpb, Bool.false_eq_true, if_false,
        List.append_nil]
      exact ih hab' hpa (fun k h1 h2 => hk k h1 (by omega))

/-- C6 amended: the single list-wrapping replacement is greedy across
newlines, so for any body `m` whatsoever the span from a leading `<li>` to
a trailing `</li>` — including any non-list text, or even several disjoint
list blocks, strictly inside — is wrapped in one `<ul>...</ul>`. -/
theorem wrapList_greedy_span (m : Str) :
    wrapListPass ("<li>".data ++ m ++ "</li>".data) =
      "<ul>".data ++ ("<li>".data ++ m ++ "</li>".data) ++ "</ul>".data := by
  set s := "<li>".data ++ m ++ "</li>".data with hs
  have hlen : s.length = m.length + 9 := by
    simp [hs]
  have hfirst : (occIdxs "<li>".data s).head? = some 0 := by
    apply occIdxs_head_zero
    have hcons : s = '<' :: 'l' :: 'i' :: '>' :: (m ++ "</li>".data) := rfl
    rw [hcons]
    simp [List.isPrefixOf]
  have hlast : (occIdxs "</li>".data s).getLast? = some (m.length + 4) := by
    unfold occIdxs
    apply getLast?_filter_range _ _ _ (by omega) _ ?_
    · have hassoc : s = ("<li>".data ++ m) ++ "</li>".data := by
        rw [hs, List.append_assoc]
      have hl : ("<li>".data ++ m).length = m.length + 4 := by
        simp [List.length_append]
      have hdrop : s.drop (m.length + 4) = "</li>".data := by
        rw [hassoc, ← hl, List.drop_left]
      rw [hdrop]
      decide
    · intro j h1 h2
      by_contra hcon
      have htrue : ("</li>".data).isPrefixOf (s.drop j) = true := by
        cases hval : ("</li>".data).isPrefixOf (s.drop j) with
        | false => exact absurd hval hcon
        | true => rfl
      have hpre := List.isPrefixOf_iff_prefix.mp htrue
      have hle : ("</li>".data).length ≤ (s.drop j).length := hpre.length_le
      rw [List.length_drop] at hle
      have h5 : ("</li>".data : Str).length = 5 := by decide
      omega
  unfold wrapListPass
  rw [hfirst, hlast]
  dsimp only
  rw [if_pos (by omega)]
  have h9 : m.length + 4 + 5 = s.length := by omega
  simp [h9, List.take_length, List.drop_length]

/-- C6 counterexample: with two list items separated by the plain line `x`,
the inserted `<ul>` does not wrap only the first maximal run of `<li>`
elements — the greedy single replacement wraps from the first `<li>` to the
last `</li>`, enclosing the plain text `x` inside the `<ul>`. -/
theorem list_wrap_engulfs_cx :
    renderMarkdown "* a\nx\n* b".data =
      "<p><ul><li>a</li>\nx\n<li>b</li></ul></p>".data ∧
    renderMarkdown "* a\nx\n* b".data ≠
      "<p><ul><li>a</li></ul>\nx\n<li>b</li></p>".data := by
  decide

end Saulo
